import Mathlib

/-!
Shallow embedding of the semantic search core of the visual-memory-search
repository (src/search_engine.py and src/processor.py), together with
theorems settling the specification claims about it.

Modelling conventions:
* Python dictionaries holding string keys become association lists; the
  code only ever inserts a key that is absent, so a cons-based insert is
  faithful.
* External collaborators (the sentence-transformer model, the ChromaDB
  collection, the Anthropic client) are modelled as oracle parameters:
  a fallible call becomes an `Except String` value supplied to the
  operation, an embedding becomes a `List ℚ`.  A raised exception is the
  `.error` case; Python `try`/`except` becomes a `match` on the oracle.
* Engine-object attributes (`self.model`, `self.indexed_docs`,
  `self.doc_count`, the collection contents) become an explicit
  `EngineState` threaded through every operation.
-/

/-- A processed document, as produced by `ScreenshotProcessor.process_image`
(src/processor.py): the record consumed by `SearchEngine.index_document`. -/
structure Document where
  path : String
  filename : String
  ocr_text : String
  vision_description : String
  combined_text : String
deriving Repr, DecidableEq

/-- The metadata record built for one document in `index_document` /
`index_batch` (src/search_engine.py lines 136-143 and 200-207). -/
structure Metadata where
  path : String
  filename : String
  ocr_text_preview : String
  vision_preview : String
  has_ocr : Bool
  has_vision : Bool
deriving Repr, DecidableEq

/-- One entry of the ChromaDB collection: `collection.add` receives parallel
lists of ids, embeddings, metadatas and documents; an entry bundles one
column of those parallel lists. -/
structure IndexEntry where
  id : String
  embedding : List ℚ
  metadata : Metadata
  text : String
deriving Repr, DecidableEq

/-- The mutable attributes of a `SearchEngine` object: the lazily loaded
model (`self.model`, abstracted to a numeric handle), the dedup table
`self.indexed_docs`, the counter `self.doc_count`, and the contents of the
ChromaDB collection `self.collection`. -/
structure EngineState where
  model : Option Nat
  indexed_docs : List (String × Document)
  doc_count : Nat
  store : List IndexEntry
deriving Repr, DecidableEq

/-- Association-list lookup modelling Python dict lookup / membership
(`doc_id in self.indexed_docs`, `img_hash in self.vision_cache`). -/
def assocFind {β : Type} (key : String) : List (String × β) → Option β
  | [] => none
  | (k, v) :: rest => if k = key then some v else assocFind key rest

/-- Python `str.strip()` with no argument: remove leading and trailing
whitespace.  Implemented over the character list so that it evaluates by
kernel reduction (`String.trim` is defined by well-founded recursion and
does not). -/
def pyStrip (s : String) : String :=
  ⟨((s.data.dropWhile Char.isWhitespace).reverse.dropWhile Char.isWhitespace).reverse⟩

/-- `_generate_doc_id` (src/search_engine.py line 103): the md5 hex digest
of the path, abstracted over the hash function `h`. -/
def generateDocId (h : String → String) (path : String) : String :=
  h path

/-- Metadata construction shared verbatim by `index_document` (lines
136-143) and `index_batch` (lines 200-207): previews truncated to 500
characters, with Python string truthiness for the conditionals. -/
def buildMetadata (doc : Document) : Metadata :=
  { path := doc.path
    filename := doc.filename
    ocr_text_preview := if doc.ocr_text ≠ "" then doc.ocr_text.take 500 else ""
    vision_preview := if doc.vision_description ≠ "" then doc.vision_description.take 500 else ""
    has_ocr := doc.ocr_text ≠ ""
    has_vision := doc.vision_description ≠ "" }

/-- `_ensure_model_loaded` (src/search_engine.py lines 77-101): if
`self.model` is `None`, try three `SentenceTransformer` constructions in
order (CPU-pinned, default device, `trust_remote_code`); the first success
is assigned to `self.model`; if all three raise, the last exception is
re-raised (`raise e3`).  The three construction outcomes are the oracles
`a1 a2 a3`. -/
def ensureModelLoaded (a1 a2 a3 : Except String Nat) (st : EngineState) :
    Except String EngineState :=
  match st.model with
  | some _ => .ok st
  | none =>
    match a1 with
    | .ok m => .ok { st with model := some m }
    | .error _ =>
      match a2 with
      | .ok m => .ok { st with model := some m }
      | .error _ =>
        match a3 with
        | .ok m => .ok { st with model := some m }
        | .error e3 => .error e3

/-- `index_document` (src/search_engine.py lines 107-161).  Oracles:
`hash` is md5, `a1 a2 a3` the model-load attempts, `encode` the call
`self.model.encode(...).tolist()`, `addResult` the outcome of
`self.collection.add`.  The whole body is wrapped in `try`/`except` that
returns `False`, so every raised oracle error yields `(false, ·)`. -/
def indexDocument (hash : String → String) (a1 a2 a3 : Except String Nat)
    (encode : String → Except String (List ℚ)) (addResult : Except String Unit)
    (st : EngineState) (document : Document) : Bool × EngineState :=
  if pyStrip document.combined_text = "" then
    (false, st)
  else
    let doc_id := generateDocId hash document.path
    if (assocFind doc_id st.indexed_docs).isSome then
      (true, st)
    else
      match ensureModelLoaded a1 a2 a3 st with
      | .error _ => (false, st)
      | .ok st1 =>
        match encode document.combined_text with
        | .error _ => (false, st1)
        | .ok embedding =>
          let metadata := buildMetadata document
          match addResult with
          | .error _ => (false, st1)
          | .ok _ =>
            (true,
              { st1 with
                store := st1.store ++ [⟨doc_id, embedding, metadata, document.combined_text⟩]
                indexed_docs := (doc_id, document) :: st1.indexed_docs
                doc_count := st1.doc_count + 1 })

/-- The per-document loop of `index_batch` (src/search_engine.py lines
190-210): walk `valid_docs`, skip documents whose id is already in
`self.indexed_docs`, otherwise encode (a raised encode error aborts the
loop and propagates, the surrounding code has no `try`), append to the
parallel batch lists (collapsed into `IndexEntry`s), record the document
in `indexed_docs` and bump the local `success_count`.  Returns the loop
outcome together with the mutated dedup table, the accumulated batch
entries, and `success_count`. -/
def batchLoop (hash : String → String) (encode : String → Except String (List ℚ)) :
    List Document → List (String × Document) → List IndexEntry → Nat →
    Except String Unit × List (String × Document) × List IndexEntry × Nat
  | [], indexed, entries, cnt => (.ok (), indexed, entries, cnt)
  | doc :: rest, indexed, entries, cnt =>
    let doc_id := generateDocId hash doc.path
    if (assocFind doc_id indexed).isSome then
      batchLoop hash encode rest indexed entries cnt
    else
      match encode doc.combined_text with
      | .error e => (.error e, indexed, entries, cnt)
      | .ok emb =>
        batchLoop hash encode rest ((doc_id, doc) :: indexed)
          (entries ++ [⟨doc_id, emb, buildMetadata doc, doc.combined_text⟩]) (cnt + 1)

/-- `index_batch` (src/search_engine.py lines 163-226).  No outer `try`:
a model-load failure or an encode failure propagates to the caller as
`.error`, with whatever mutation of `indexed_docs` had already happened.
Only the bulk `collection.add` is guarded: on its failure the exception
is caught, `success_count` is forced to `0`, and `doc_count` is left
un-incremented (the `+= len(ids)` sits after the `add` inside the `try`). -/
def indexBatch (hash : String → String) (a1 a2 a3 : Except String Nat)
    (encode : String → Except String (List ℚ)) (addResult : Except String Unit)
    (st : EngineState) (documents : List Document) : Except String Nat × EngineState :=
  let valid_docs := documents.filter (fun d => pyStrip d.combined_text ≠ "")
  if valid_docs = [] then
    (.ok 0, st)
  else
    match ensureModelLoaded a1 a2 a3 st with
    | .error e => (.error e, st)
    | .ok st1 =>
      match batchLoop hash encode valid_docs st1.indexed_docs [] 0 with
      | (.error e, indexed1, _, _) => (.error e, { st1 with indexed_docs := indexed1 })
      | (.ok _, indexed1, entries, success_count) =>
        let st2 := { st1 with indexed_docs := indexed1 }
        if entries = [] then
          (.ok success_count, st2)
        else
          match addResult with
          | .ok _ =>
            (.ok success_count,
              { st2 with
                store := st2.store ++ entries
                doc_count := st2.doc_count + entries.length })
          | .error _ => (.ok 0, st2)

/-- `search` (src/search_engine.py lines 228-268).  `storeQuery n` is the
outcome of `self.collection.query(..., n_results = n)`, reduced to the
inner metadata and distance lists; the code passes
`n = min(top_k, self.doc_count)`.  The whole body sits in a `try` whose
`except` returns `[]`, so every oracle error yields the empty result list.
Distances are mapped to confidences by `confidence = 1.0 - distance`. -/
def search (a1 a2 a3 : Except String Nat) (encode : String → Except String (List ℚ))
    (storeQuery : Nat → Except String (List Metadata × List ℚ))
    (st : EngineState) (query : String) (top_k : Nat) :
    List (Metadata × ℚ) × EngineState :=
  if st.doc_count = 0 then
    ([], st)
  else
    match ensureModelLoaded a1 a2 a3 st with
    | .error _ => ([], st)
    | .ok st1 =>
      match encode query with
      | .error _ => ([], st1)
      | .ok _query_embedding =>
        match storeQuery (min top_k st.doc_count) with
        | .error _ => ([], st1)
        | .ok (metas, dists) =>
          if metas ≠ [] ∧ dists ≠ [] then
            ((metas.zip dists).map (fun md => (md.1, 1 - md.2)), st1)
          else
            ([], st1)

/-- `clear_index` (src/search_engine.py lines 270-282).  `deleteResult`
and `createResult` are the outcomes of `client.delete_collection` and
`client.create_collection`.  The body is wrapped in `try`/`except`: if the
delete raises, nothing is reset; if the delete succeeds and the recreate
raises, the collection contents are gone but the dedup table and counter
keep their old values; only when both succeed are `indexed_docs` and
`doc_count` reset. -/
def clearIndex (deleteResult createResult : Except String Unit) (st : EngineState) :
    EngineState :=
  match deleteResult with
  | .error _ => st
  | .ok _ =>
    match createResult with
    | .error _ => { st with store := [] }
    | .ok _ => { st with store := [], indexed_docs := [], doc_count := 0 }

/-- The statistics record of `get_stats` (src/search_engine.py lines
284-306); `embedding_dimension` is a string-or-number field, rendered as
a string. -/
structure Stats where
  total_documents : Nat
  model_name : String
  indexed_files : List String
  embedding_dimension : String
deriving Repr, DecidableEq

/-- `get_stats` (src/search_engine.py lines 284-306): a read-only report;
`dimResult` is the outcome of `model.get_sentence_embedding_dimension()`,
consulted only when the model is already loaded. -/
def getStats (dimResult : Except String Nat) (model_name : String) (st : EngineState) :
    Stats × EngineState :=
  ({ total_documents := st.doc_count
     model_name := model_name
     indexed_files := st.indexed_docs.map Prod.fst
     embedding_dimension :=
       match st.model with
       | some _ =>
         match dimResult with
         | .ok n => toString n
         | .error _ => "Unknown (model not loaded)"
       | none => "Not loaded yet" }, st)

/-- `_get_fallback_description` (src/processor.py lines 150-157). -/
def fallbackDescription : String :=
  "Visual description unavailable (API key not configured or API error)"

/-- `get_vision_description` (src/processor.py lines 85-148).  An image is
modelled by its PNG byte content (a `String`), `hashI` is `_image_hash`
(md5 of those bytes), `computeF` the Claude API call (resizing and base64
encoding folded into it), `hasClient` whether `self.client` was
initialized, and `cache` is `self.vision_cache`.  Returns the description,
the new cache, and whether the external compute was invoked.  An API
exception is caught and turned into the fallback description without
caching. -/
def getVisionDescription (hashI : String → String)
    (computeF : String → Except String String) (hasClient useCache : Bool)
    (cache : List (String × String)) (image : String) :
    String × List (String × String) × Bool :=
  if !hasClient then
    (fallbackDescription, cache, false)
  else
    let img_hash := hashI image
    match if useCache then assocFind img_hash cache else none with
    | some cached => (cached, cache, false)
    | none =>
      match computeF image with
      | .ok description =>
        if useCache then (description, (img_hash, description) :: cache, true)
        else (description, cache, true)
      | .error _ => (fallbackDescription, cache, true)

/-- Iterated calls to `get_vision_description` with `use_cache = True` and
an initialized client, threading the cache and counting, for a fixed byte
content `c`, how many of the calls with exactly that content invoked the
external compute function. -/
def visionCallsFor (hashI : String → String) (computeF : String → Except String String)
    (c : String) (cache : List (String × String)) :
    List String → List (String × String) × Nat
  | [] => (cache, 0)
  | img :: rest =>
    let r := getVisionDescription hashI computeF true true cache img
    let res := visionCallsFor hashI computeF c r.2.1 rest
    (res.1, res.2 + (if img = c ∧ r.2.2 = true then 1 else 0))

/-! ### Helper lemmas -/

lemma assocFind_cons {β : Type} (k k1 : String) (v : β) (l : List (String × β)) :
    assocFind k ((k1, v) :: l) = if k1 = k then some v else assocFind k l := rfl

lemma ensureModelLoaded_of_some (a1 a2 a3 : Except String Nat) {st : EngineState}
    {m : Nat} (h : st.model = some m) : ensureModelLoaded a1 a2 a3 st = .ok st := by
  unfold ensureModelLoaded
  rw [h]

lemma ensureModelLoaded_ok_preserves {a1 a2 a3 : Except String Nat}
    {st st1 : EngineState} (h : ensureModelLoaded a1 a2 a3 st = .ok st1) :
    st1.indexed_docs = st.indexed_docs ∧ st1.doc_count = st.doc_count ∧
      st1.store = st.store := by
  unfold ensureModelLoaded at h
  cases hm : st.model with
  | some m =>
    rw [hm] at h
    simp only [Except.ok.injEq] at h
    subst h
    exact ⟨rfl, rfl, rfl⟩
  | none =>
    rw [hm] at h
    cases a1 with
    | ok m1 =>
      simp only [Except.ok.injEq] at h
      subst h
      exact ⟨rfl, rfl, rfl⟩
    | error e1 =>
      cases a2 with
      | ok m2 =>
        simp only [Except.ok.injEq] at h
        subst h
        exact ⟨rfl, rfl, rfl⟩
      | error e2 =>
        cases a3 with
        | ok m3 =>
          simp only [Except.ok.injEq] at h
          subst h
          exact ⟨rfl, rfl, rfl⟩
        | error e3 => simp at h

lemma batchLoop_ok_of_encode_total {hash : String → String}
    {encode : String → Except String (List ℚ)}
    (henc : ∀ s, ∃ v, encode s = .ok v) (docs : List Document)
    (indexed : List (String × Document)) (entries : List IndexEntry) (cnt : Nat) :
    (batchLoop hash encode docs indexed entries cnt).1 = .ok () := by
  induction docs generalizing indexed entries cnt with
  | nil => rfl
  | cons doc rest ih =>
    simp only [batchLoop]
    by_cases hmem : (assocFind (generateDocId hash doc.path) indexed).isSome
    · simp only [hmem, if_true]
      exact ih _ _ _
    · simp only [hmem, if_false]
      obtain ⟨v, hv⟩ := henc doc.combined_text
      rw [hv]
      exact ih _ _ _

lemma batchLoop_find_preserved {hash : String → String}
    {encode : String → Except String (List ℚ)} (docs : List Document)
    (indexed : List (String × Document)) (entries : List IndexEntry) (cnt : Nat)
    {k : String} {v : Document} (h : assocFind k indexed = some v) :
    assocFind k (batchLoop hash encode docs indexed entries cnt).2.1 = some v := by
  induction docs generalizing indexed entries cnt with
  | nil => exact h
  | cons doc rest ih =>
    simp only [batchLoop]
    by_cases hmem : (assocFind (generateDocId hash doc.path) indexed).isSome
    · simp only [hmem, if_true]
      exact ih _ _ _ h
    · simp only [hmem, if_false]
      cases henc : encode doc.combined_text with
      | error e => exact h
      | ok emb =>
        apply ih
        rw [assocFind_cons]
        have hne : generateDocId hash doc.path ≠ k := by
          intro hk
          rw [hk, h] at hmem
          simp at hmem
        simp [hne, h]

lemma batchLoop_mem_of_mem {hash : String → String}
    {encode : String → Except String (List ℚ)}
    (henc : ∀ s, ∃ v, encode s = .ok v) {d : Document} {docs : List Document}
    (hd : d ∈ docs) (indexed : List (String × Document))
    (entries : List IndexEntry) (cnt : Nat) :
    (assocFind (generateDocId hash d.path)
      (batchLoop hash encode docs indexed entries cnt).2.1).isSome := by
  induction docs generalizing indexed entries cnt with
  | nil => cases hd
  | cons doc rest ih =>
    simp only [batchLoop]
    by_cases hmem : (assocFind (generateDocId hash doc.path) indexed).isSome
    · simp only [hmem, if_true]
      rcases List.mem_cons.mp hd with hEq | hRest
      · subst hEq
        obtain ⟨v, hv⟩ := Option.isSome_iff_exists.mp hmem
        rw [batchLoop_find_preserved rest indexed entries cnt hv]
        rfl
      · exact ih hRest _ _ _
    · rw [if_neg hmem]
      obtain ⟨emb, hemb⟩ := henc doc.combined_text
      rw [hemb]
      rcases List.mem_cons.mp hd with hEq | hRest
      · subst hEq
        have hfind : assocFind (generateDocId hash d.path)
            ((generateDocId hash d.path, d) :: indexed) = some d := by
          rw [assocFind_cons]
          simp
        rw [batchLoop_find_preserved rest _ _ _ hfind]
        rfl
      · exact ih hRest _ _ _

lemma batchLoop_entries_length_mono {hash : String → String}
    {encode : String → Except String (List ℚ)} (docs : List Document)
    (indexed : List (String × Document)) (entries : List IndexEntry) (cnt : Nat) :
    entries.length ≤ (batchLoop hash encode docs indexed entries cnt).2.2.1.length := by
  induction docs generalizing indexed entries cnt with
  | nil => exact le_refl _
  | cons doc rest ih =>
    simp only [batchLoop]
    by_cases hmem : (assocFind (generateDocId hash doc.path) indexed).isSome
    · simp only [hmem, if_true]
      exact ih _ _ _
    · simp only [hmem, if_false]
      cases henc : encode doc.combined_text with
      | error e => exact le_refl _
      | ok emb =>
        calc entries.length ≤ (entries ++ [(⟨generateDocId hash doc.path, emb,
              buildMetadata doc, doc.combined_text⟩ : IndexEntry)]).length := by
              simp
          _ ≤ _ := ih _ _ _

lemma batchLoop_entries_ne_nil {hash : String → String}
    {encode : String → Except String (List ℚ)}
    (henc : ∀ s, ∃ v, encode s = .ok v) {d : Document} {docs : List Document}
    (hd : d ∈ docs) (indexed : List (String × Document))
    (hnew : assocFind (generateDocId hash d.path) indexed = none)
    (entries : List IndexEntry) (cnt : Nat) :
    entries.length < (batchLoop hash encode docs indexed entries cnt).2.2.1.length := by
  induction docs generalizing indexed entries cnt with
  | nil => cases hd
  | cons doc rest ih =>
    simp only [batchLoop]
    by_cases hmem : (assocFind (generateDocId hash doc.path) indexed).isSome
    · simp only [hmem, if_true]
      rcases List.mem_cons.mp hd with hEq | hRest
      · subst hEq
        rw [hnew] at hmem
        simp at hmem
      · exact ih hRest _ hnew _ _
    · simp only [hmem, if_false]
      obtain ⟨emb, hemb⟩ := henc doc.combined_text
      rw [hemb]
      have hstep : entries.length < (entries ++ [(⟨generateDocId hash doc.path, emb,
          buildMetadata doc, doc.combined_text⟩ : IndexEntry)]).length := by
        simp
      exact lt_of_lt_of_le hstep (batchLoop_entries_length_mono _ _ _ _)

/-! ### Concrete fixtures for witnesses and counterexamples -/

/-- A well-formed processed document used as concrete test data. -/
def sampleDoc : Document :=
  ⟨"a.png", "a.png", "hello world", "a blue login button", "hello world, a blue login button"⟩

/-- A document with the same path as `sampleDoc` but empty text. -/
def sampleDocEmpty : Document := ⟨"a.png", "a.png", "", "", ""⟩

/-- A document with the same path as `sampleDoc` but different text. -/
def sampleDocAlt : Document := ⟨"a.png", "a.png", "other", "red dialog", "red error dialog"⟩

/-- A second, distinct document. -/
def sampleDocB : Document := ⟨"b.png", "b.png", "err", "red error dialog", "red error dialog text"⟩

/-- Identity stands in for the md5 hex digest in concrete instantiations. -/
def idHash : String → String := fun s => s

/-- A total embedding oracle. -/
def okEncode : String → Except String (List ℚ) := fun _ => .ok [1, 0]

/-- Engine state with the model loaded and nothing indexed. -/
def stEmpty : EngineState := ⟨some 0, [], 0, []⟩

/-- Engine state with the model not yet loaded and nothing indexed. -/
def stFresh : EngineState := ⟨none, [], 0, []⟩

/-- Engine state after successfully indexing `sampleDoc` (model loaded). -/
def stOne : EngineState :=
  ⟨some 0, [("a.png", sampleDoc)], 1,
    [⟨"a.png", [1, 0], buildMetadata sampleDoc, sampleDoc.combined_text⟩]⟩

/-! ### Claim theorems -/

/-- C9: when `doc_count` is zero, `search` returns the empty list
immediately and the state — in particular the lazily initialized model —
is unchanged; the result does not depend on the model-load, encode or
store oracles, so the embedding model is neither initialized nor invoked. -/
theorem search_empty_index_returns_nil (a1 a2 a3 : Except String Nat)
    (encode : String → Except String (List ℚ))
    (storeQuery : Nat → Except String (List Metadata × List ℚ))
    (st : EngineState) (q : String) (top_k : Nat) (h : st.doc_count = 0) :
    search a1 a2 a3 encode storeQuery st q top_k = ([], st) := by
  unfold search
  rw [if_pos h]

/-- Witness for C9: a fresh engine (model not loaded, zero documents)
queried with failing oracles still returns `([], state)`. -/
theorem search_empty_index_returns_nil_witness :
    search (.error "x") (.error "y") (.error "z") (fun _ => .error "enc")
      (fun _ => .error "q") stFresh "query" 5 = ([], stFresh) :=
  search_empty_index_returns_nil _ _ _ _ _ _ _ _ rfl

/-- C10: `search` never surfaces an exception: if the model-load chain,
the query encoding, or the vector-store query raises, the result list is
empty (the `except` clause converts every failure into `[]`). -/
theorem search_exception_returns_nil (a1 a2 a3 : Except String Nat)
    (encode : String → Except String (List ℚ))
    (storeQuery : Nat → Except String (List Metadata × List ℚ))
    (st : EngineState) (q : String) (top_k : Nat)
    (h : (∃ e, ensureModelLoaded a1 a2 a3 st = .error e) ∨
         (∃ e, encode q = .error e) ∨
         (∃ e, storeQuery (min top_k st.doc_count) = .error e)) :
    (search a1 a2 a3 encode storeQuery st q top_k).1 = [] := by
  unfold search
  by_cases h0 : st.doc_count = 0
  · rw [if_pos h0]
  · rw [if_neg h0]
    cases hens : ensureModelLoaded a1 a2 a3 st with
    | error e => rfl
    | ok st1 =>
      cases henc : encode q with
      | error e => rfl
      | ok emb =>
        cases hq : storeQuery (min top_k st.doc_count) with
        | error e => rfl
        | ok pair =>
          exfalso
          rcases h with ⟨e, he⟩ | ⟨e, he⟩ | ⟨e, he⟩
          · rw [he] at hens
            exact Except.noConfusion hens
          · rw [he] at henc
            exact Except.noConfusion henc
          · rw [he] at hq
            exact Except.noConfusion hq

/-- Witness for C10: a nonempty index whose model-load chain fails yields
an empty result list rather than an error. -/
theorem search_exception_returns_nil_witness :
    (search (.error "a") (.error "b") (.error "c") okEncode
      (fun _ => .ok ([], [])) ⟨none, [("a.png", sampleDoc)], 1, []⟩ "q" 3).1 = [] :=
  search_exception_returns_nil _ _ _ _ _ _ _ _ (.inl ⟨"c", rfl⟩)

/-- C3: `index_document` returns `false` and leaves `indexed_docs`,
`doc_count` and the store contents unchanged both when the trimmed
`combined_text` is empty (a skip) and when the embedding call or the
upsert raises for a not-yet-indexed document (atomic single-document
failure). -/
theorem indexDocument_skip_and_failure_atomic (hash : String → String)
    (a1 a2 a3 : Except String Nat) (encode : String → Except String (List ℚ))
    (addResult : Except String Unit) (st : EngineState) (d : Document)
    (h : pyStrip d.combined_text = "" ∨
         (assocFind (generateDocId hash d.path) st.indexed_docs = none ∧
           ((∃ e, encode d.combined_text = .error e) ∨ (∃ e, addResult = .error e)))) :
    (indexDocument hash a1 a2 a3 encode addResult st d).1 = false ∧
    (indexDocument hash a1 a2 a3 encode addResult st d).2.indexed_docs = st.indexed_docs ∧
    (indexDocument hash a1 a2 a3 encode addResult st d).2.doc_count = st.doc_count ∧
    (indexDocument hash a1 a2 a3 encode addResult st d).2.store = st.store := by
  unfold indexDocument
  by_cases hempty : pyStrip d.combined_text = ""
  · rw [if_pos hempty]
    exact ⟨rfl, rfl, rfl, rfl⟩
  · rcases h with h | ⟨hnew, herr⟩
    · exact absurd h hempty
    · rw [if_neg hempty]
      have hns : ¬((assocFind (generateDocId hash d.path) st.indexed_docs).isSome = true) := by
        rw [hnew]
        simp
      rw [if_neg hns]
      cases hens : ensureModelLoaded a1 a2 a3 st with
      | error e => exact ⟨rfl, rfl, rfl, rfl⟩
      | ok st1 =>
        obtain ⟨hi, hc, hs⟩ := ensureModelLoaded_ok_preserves hens
        cases henc : encode d.combined_text with
        | error e => exact ⟨rfl, hi, hc, hs⟩
        | ok emb =>
          cases haddr : addResult with
          | error e => exact ⟨rfl, hi, hc, hs⟩
          | ok u =>
            exfalso
            rcases herr with ⟨e, he⟩ | ⟨e, he⟩
            · rw [he] at henc
              exact Except.noConfusion henc
            · rw [he] at haddr
              exact Except.noConfusion haddr

/-- Witness for C3: the empty document is skipped with `false` and an
upsert failure on a fresh document also yields `false`, each leaving the
dedup table, the counter and the store as they were. -/
theorem indexDocument_skip_and_failure_atomic_witness :
    ((indexDocument idHash (.ok 0) (.ok 0) (.ok 0) okEncode (.ok ()) stEmpty
        sampleDocEmpty).1 = false ∧
      (indexDocument idHash (.ok 0) (.ok 0) (.ok 0) okEncode (.ok ()) stEmpty
        sampleDocEmpty).2.doc_count = stEmpty.doc_count) ∧
    ((indexDocument idHash (.ok 0) (.ok 0) (.ok 0) okEncode (.error "upsert")
        stEmpty sampleDoc).1 = false ∧
      (indexDocument idHash (.ok 0) (.ok 0) (.ok 0) okEncode (.error "upsert")
        stEmpty sampleDoc).2.store = stEmpty.store) := by
  have h1 := indexDocument_skip_and_failure_atomic idHash (.ok 0) (.ok 0) (.ok 0)
    okEncode (.ok ()) stEmpty sampleDocEmpty (.inl (by decide))
  have h2 := indexDocument_skip_and_failure_atomic idHash (.ok 0) (.ok 0) (.ok 0)
    okEncode (.error "upsert") stEmpty sampleDoc (.inr ⟨rfl, .inr ⟨"upsert", rfl⟩⟩)
  exact ⟨⟨h1.1, h1.2.2.1⟩, ⟨h2.1, h2.2.2.2⟩⟩

/-- C2, counterexample: the claim promises `true` for every document whose
path hashes to an already-indexed id, even with different `combined_text`;
but a re-submitted document with the same path and empty `combined_text`
(a different text than the stored one) is rejected with `false`, because
the empty-text check precedes the dedup check. -/
theorem indexDocument_dup_empty_text_counterexample :
    (assocFind (generateDocId idHash sampleDocEmpty.path) stOne.indexed_docs).isSome = true ∧
    sampleDocEmpty.combined_text ≠ sampleDoc.combined_text ∧
    (indexDocument idHash (.ok 0) (.ok 0) (.ok 0) okEncode (.ok ()) stOne
      sampleDocEmpty).1 = false := by
  refine ⟨by decide, by decide, by decide⟩

/-- C2, amended: for every document with non-empty trimmed `combined_text`
whose path hashes to an id already present in `indexed_docs`,
`index_document` returns `true` with the state untouched — independently of
every oracle, so nothing is recomputed — and the originally stored document
for that id is preserved (first write wins, no update path). -/
theorem indexDocument_reindex_idempotent (hash : String → String)
    (a1 a2 a3 : Except String Nat) (encode : String → Except String (List ℚ))
    (addResult : Except String Unit) (st : EngineState) (d d0 : Document)
    (hvalid : pyStrip d.combined_text ≠ "")
    (hprev : assocFind (generateDocId hash d.path) st.indexed_docs = some d0) :
    indexDocument hash a1 a2 a3 encode addResult st d = (true, st) ∧
    (indexDocument hash a1 a2 a3 encode addResult st d).2.doc_count = st.doc_count ∧
    assocFind (generateDocId hash d.path)
      (indexDocument hash a1 a2 a3 encode addResult st d).2.indexed_docs = some d0 := by
  have hmain : indexDocument hash a1 a2 a3 encode addResult st d = (true, st) := by
    unfold indexDocument
    rw [if_neg hvalid]
    have hsome : (assocFind (generateDocId hash d.path) st.indexed_docs).isSome = true := by
      rw [hprev]
      rfl
    rw [if_pos hsome]
  refine ⟨hmain, ?_, ?_⟩
  · rw [hmain]
  · rw [hmain]
    exact hprev

/-- Witness for C2 (amended): re-submitting the already indexed path with
different, non-empty text returns `true` and changes nothing, even with a
failing upsert oracle — nothing is recomputed. -/
theorem indexDocument_reindex_idempotent_witness :
    indexDocument idHash (.ok 1) (.error "x") (.ok 2) okEncode (.error "add")
      stOne sampleDocAlt = (true, stOne) ∧
    assocFind (generateDocId idHash sampleDocAlt.path)
      (indexDocument idHash (.ok 1) (.error "x") (.ok 2) okEncode (.error "add")
        stOne sampleDocAlt).2.indexed_docs = some sampleDoc := by
  have h := indexDocument_reindex_idempotent idHash (.ok 1) (.error "x") (.ok 2)
    okEncode (.error "add") stOne sampleDocAlt sampleDoc (by decide) (by decide)
  exact ⟨h.1, h.2.2⟩

/-- C5, counterexample: with all three model-load attempts failing, a call
to `index_document` that triggers initialization returns the normal value
`(false, state)` to its caller — the failure is caught by the operation's
`except` clause, not propagated to the operation's caller. -/
theorem init_failure_not_propagated_counterexample :
    indexDocument idHash (.error "e1") (.error "e2") (.error "e3") okEncode
      (.ok ()) stFresh sampleDoc = (false, stFresh) := by decide

/-- C5, amended: `_ensure_model_loaded` tries the three strategies at most
once each in fixed order (never touching later attempts after a success,
and none at all once the model is loaded); if all three fail the last
error is raised out of the initialization routine; `index_batch`
propagates that error to its own caller, while `index_document` catches it
and returns `false` and `search` catches it and returns `[]`. -/
theorem ensureModelLoaded_fallback_chain (st : EngineState) (hm : st.model = none) :
    (∀ (m : Nat) (a2 a3 : Except String Nat),
        ensureModelLoaded (.ok m) a2 a3 st = .ok { st with model := some m }) ∧
    (∀ (m : Nat) (e1 : String) (a3 : Except String Nat),
        ensureModelLoaded (.error e1) (.ok m) a3 st = .ok { st with model := some m }) ∧
    (∀ (m : Nat) (e1 e2 : String),
        ensureModelLoaded (.error e1) (.error e2) (.ok m) st
          = .ok { st with model := some m }) ∧
    (∀ (e1 e2 e3 : String),
        ensureModelLoaded (.error e1) (.error e2) (.error e3) st = .error e3) ∧
    (∀ (st' : EngineState) (m' : Nat) (a1 a2 a3 : Except String Nat),
        st'.model = some m' → ensureModelLoaded a1 a2 a3 st' = .ok st') ∧
    (∀ (e1 e2 e3 : String) (hash : String → String)
        (encode : String → Except String (List ℚ)) (addResult : Except String Unit)
        (documents : List Document),
        documents.filter (fun d => pyStrip d.combined_text ≠ "") ≠ [] →
        indexBatch hash (.error e1) (.error e2) (.error e3) encode addResult st
          documents = (.error e3, st)) ∧
    (∀ (e1 e2 e3 : String) (hash : String → String)
        (encode : String → Except String (List ℚ)) (addResult : Except String Unit)
        (d : Document),
        pyStrip d.combined_text ≠ "" →
        assocFind (generateDocId hash d.path) st.indexed_docs = none →
        indexDocument hash (.error e1) (.error e2) (.error e3) encode addResult st d
          = (false, st)) ∧
    (∀ (e1 e2 e3 : String) (encode : String → Except String (List ℚ))
        (storeQuery : Nat → Except String (List Metadata × List ℚ))
        (q : String) (top_k : Nat),
        st.doc_count ≠ 0 →
        search (.error e1) (.error e2) (.error e3) encode storeQuery st q top_k
          = ([], st)) := by
  have hfail : ∀ (e1 e2 e3 : String),
      ensureModelLoaded (.error e1) (.error e2) (.error e3) st = .error e3 := by
    intro e1 e2 e3
    unfold ensureModelLoaded
    rw [hm]
  refine ⟨?_, ?_, ?_, hfail, ?_, ?_, ?_, ?_⟩
  · intro m a2 a3
    unfold ensureModelLoaded
    rw [hm]
  · intro m e1 a3
    unfold ensureModelLoaded
    rw [hm]
  · intro m e1 e2
    unfold ensureModelLoaded
    rw [hm]
  · intro st' m' a1 a2 a3 hm'
    exact ensureModelLoaded_of_some a1 a2 a3 hm'
  · intro e1 e2 e3 hash encode addResult documents hvd
    unfold indexBatch
    rw [if_neg hvd, hfail e1 e2 e3]
  · intro e1 e2 e3 hash encode addResult d hvalid hnew
    unfold indexDocument
    rw [if_neg hvalid]
    have hns : ¬((assocFind (generateDocId hash d.path) st.indexed_docs).isSome = true) := by
      rw [hnew]
      simp
    rw [if_neg hns, hfail e1 e2 e3]
  · intro e1 e2 e3 encode storeQuery q top_k hk
    unfold search
    rw [if_neg hk, hfail e1 e2 e3]

/-- Witness for C5 (amended): on a fresh engine the chain stops at the
first success, and when all three attempts fail `_ensure_model_loaded`
returns the third error while `index_batch` propagates it. -/
theorem ensureModelLoaded_fallback_chain_witness :
    ensureModelLoaded (.ok 7) (.error "x") (.error "y") stFresh
      = .ok { stFresh with model := some 7 } ∧
    ensureModelLoaded (.error "e1") (.error "e2") (.error "e3") stFresh = .error "e3" ∧
    indexBatch idHash (.error "e1") (.error "e2") (.error "e3") okEncode (.ok ())
      stFresh [sampleDoc] = (.error "e3", stFresh) := by
  have h := ensureModelLoaded_fallback_chain stFresh rfl
  exact ⟨h.1 7 _ _, h.2.2.2.1 "e1" "e2" "e3",
    h.2.2.2.2.2.1 "e1" "e2" "e3" idHash okEncode (.ok ()) [sampleDoc] (by decide)⟩

/-- C6, counterexample: when the underlying `delete_collection` raises,
`clear_index` catches the exception and leaves the state as it was, so it
does not always reset `doc_count` to `0` and `indexed_docs` to empty. -/
theorem clearIndex_failure_counterexample :
    (clearIndex (.error "delete failed") (.ok ())
        ⟨some 0, [("a.png", sampleDoc)], 1, []⟩).doc_count = 1 ∧
    (clearIndex (.error "delete failed") (.ok ())
        ⟨some 0, [("a.png", sampleDoc)], 1, []⟩).indexed_docs ≠ [] := by
  exact ⟨rfl, by decide⟩

/-- C6, amended: `doc_count` is a natural number, non-decreasing across
`index_document`, `index_batch`, `search` and `get_stats`; `clear_index`
resets `doc_count` to exactly `0` and `indexed_docs` to empty whenever the
destroy-and-recreate succeeds; if the destroy raises the state is left
fully unchanged, and if the recreate raises after a successful destroy the
counter and dedup table keep their old values (the reset is skipped). -/
theorem doc_count_monotone_and_clear_reset :
    (∀ (hash : String → String) (a1 a2 a3 : Except String Nat)
        (encode : String → Except String (List ℚ)) (addResult : Except String Unit)
        (st : EngineState) (d : Document),
        st.doc_count ≤ (indexDocument hash a1 a2 a3 encode addResult st d).2.doc_count) ∧
    (∀ (hash : String → String) (a1 a2 a3 : Except String Nat)
        (encode : String → Except String (List ℚ)) (addResult : Except String Unit)
        (st : EngineState) (documents : List Document),
        st.doc_count ≤ (indexBatch hash a1 a2 a3 encode addResult st documents).2.doc_count) ∧
    (∀ (a1 a2 a3 : Except String Nat) (encode : String → Except String (List ℚ))
        (storeQuery : Nat → Except String (List Metadata × List ℚ))
        (st : EngineState) (q : String) (top_k : Nat),
        (search a1 a2 a3 encode storeQuery st q top_k).2.doc_count = st.doc_count) ∧
    (∀ (dimResult : Except String Nat) (name : String) (st : EngineState),
        (getStats dimResult name st).2 = st) ∧
    (∀ st : EngineState, clearIndex (.ok ()) (.ok ()) st
        = { st with store := [], indexed_docs := [], doc_count := 0 }) ∧
    (∀ (e : String) (cr : Except String Unit) (st : EngineState),
        clearIndex (.error e) cr st = st) ∧
    (∀ (e : String) (st : EngineState),
        (clearIndex (.ok ()) (.error e) st).doc_count = st.doc_count ∧
        (clearIndex (.ok ()) (.error e) st).indexed_docs = st.indexed_docs) := by
  refine ⟨?_, ?_, ?_, fun _ _ _ => rfl, fun _ => rfl, fun _ _ _ => rfl,
    fun _ _ => ⟨rfl, rfl⟩⟩
  · intro hash a1 a2 a3 encode addResult st d
    unfold indexDocument
    by_cases h1 : pyStrip d.combined_text = ""
    · rw [if_pos h1]
    · rw [if_neg h1]
      by_cases h2 : (assocFind (generateDocId hash d.path) st.indexed_docs).isSome
      · rw [if_pos h2]
      · rw [if_neg h2]
        cases hens : ensureModelLoaded a1 a2 a3 st with
        | error e => exact le_refl _
        | ok st1 =>
          obtain ⟨-, hc, -⟩ := ensureModelLoaded_ok_preserves hens
          cases encode d.combined_text with
          | error e => exact le_of_eq hc.symm
          | ok emb =>
            cases addResult with
            | error e => exact le_of_eq hc.symm
            | ok u =>
              rw [← hc]
              exact Nat.le_succ _
  · intro hash a1 a2 a3 encode addResult st documents
    unfold indexBatch
    by_cases hvd : documents.filter (fun d => pyStrip d.combined_text ≠ "") = []
    · rw [if_pos hvd]
    · rw [if_neg hvd]
      cases hens : ensureModelLoaded a1 a2 a3 st with
      | error e => exact le_refl _
      | ok st1 =>
        dsimp only
        obtain ⟨-, hc, -⟩ := ensureModelLoaded_ok_preserves hens
        rcases hbl : batchLoop hash encode
            (documents.filter (fun d => pyStrip d.combined_text ≠ ""))
            st1.indexed_docs [] 0 with ⟨r1, indexed1, entries, cnt⟩
        cases r1 with
        | error e => exact le_of_eq hc.symm
        | ok u =>
          dsimp only
          by_cases he : entries = []
          · rw [if_pos he]
            exact le_of_eq hc.symm
          · rw [if_neg he]
            cases addResult with
            | error e2 => exact le_of_eq hc.symm
            | ok u2 => exact le_trans (le_of_eq hc.symm) (Nat.le_add_right _ _)
  · intro a1 a2 a3 encode storeQuery st q top_k
    unfold search
    by_cases h0 : st.doc_count = 0
    · rw [if_pos h0]
    · rw [if_neg h0]
      cases hens : ensureModelLoaded a1 a2 a3 st with
      | error e => rfl
      | ok st1 =>
        obtain ⟨-, hc, -⟩ := ensureModelLoaded_ok_preserves hens
        cases encode q with
        | error e => exact hc
        | ok emb =>
          cases storeQuery (min top_k st.doc_count) with
          | error e => exact hc
          | ok pair =>
            obtain ⟨metas, dists⟩ := pair
            dsimp only
            by_cases hg : metas ≠ [] ∧ dists ≠ []
            · rw [if_pos hg]
              exact hc
            · rw [if_neg hg]
              exact hc

/-- Shared analysis of `index_batch` when the bulk `collection.add`
raises: the run returns success count `0`, `doc_count` and the store keep
their old values, and the dedup table was already replaced by the loop's
mutated table, which contains every valid new document of the batch. -/
lemma indexBatch_add_error_state (hash : String → String)
    (a1 a2 a3 : Except String Nat) (encode : String → Except String (List ℚ))
    (e : String) (st : EngineState) {m : Nat} (documents : List Document)
    (d : Document) (hm : st.model = some m)
    (henc : ∀ s, ∃ v, encode s = .ok v) (hd : d ∈ documents)
    (hvalid : pyStrip d.combined_text ≠ "")
    (hnew : assocFind (generateDocId hash d.path) st.indexed_docs = none) :
    ∃ indexed1,
      indexBatch hash a1 a2 a3 encode (.error e) st documents
        = (.ok 0, { st with indexed_docs := indexed1 }) ∧
      (assocFind (generateDocId hash d.path) indexed1).isSome = true := by
  have hdv : d ∈ documents.filter (fun x => pyStrip x.combined_text ≠ "") :=
    List.mem_filter.mpr ⟨hd, by simp [hvalid]⟩
  have hvd : documents.filter (fun x => pyStrip x.combined_text ≠ "") ≠ [] :=
    List.ne_nil_of_mem hdv
  have hok := @batchLoop_ok_of_encode_total hash encode henc
    (documents.filter (fun x => pyStrip x.combined_text ≠ "")) st.indexed_docs [] 0
  have hmem := @batchLoop_mem_of_mem hash encode henc d
    (documents.filter (fun x => pyStrip x.combined_text ≠ "")) hdv st.indexed_docs [] 0
  have hlt := @batchLoop_entries_ne_nil hash encode henc d
    (documents.filter (fun x => pyStrip x.combined_text ≠ "")) hdv st.indexed_docs hnew
    [] 0
  unfold indexBatch
  rw [if_neg hvd, ensureModelLoaded_of_some a1 a2 a3 hm]
  dsimp only
  rcases hbl : batchLoop hash encode
      (documents.filter (fun x => pyStrip x.combined_text ≠ ""))
      st.indexed_docs [] 0 with ⟨r1, indexed1, entries, cnt⟩
  rw [hbl] at hok hmem hlt
  dsimp only at hok hmem hlt
  refine ⟨indexed1, ?_, hmem⟩
  cases r1 with
  | error e2 => exact absurd hok (by simp)
  | ok u =>
    dsimp only
    have hne : entries ≠ [] := by
      intro hcon
      rw [hcon] at hlt
      simp at hlt
    rw [if_neg hne]

/-- C1, counterexample: in a concrete run where the bulk upsert throws,
`index_batch` does return success count `0` and `indexed_docs` was already
mutated — but `doc_count` was not: the increment sits after the upsert
inside the `try`, so on failure `doc_count` is unchanged, contradicting
the claim that both were already mutated for the batch. -/
theorem indexBatch_upsert_failure_counterexample :
    (indexBatch idHash (.ok 0) (.ok 0) (.ok 0) okEncode (.error "boom") stEmpty
      [sampleDoc]).1 = .ok 0 ∧
    (indexBatch idHash (.ok 0) (.ok 0) (.ok 0) okEncode (.error "boom") stEmpty
      [sampleDoc]).2.indexed_docs ≠ stEmpty.indexed_docs ∧
    (indexBatch idHash (.ok 0) (.ok 0) (.ok 0) okEncode (.error "boom") stEmpty
      [sampleDoc]).2.doc_count = stEmpty.doc_count := by
  refine ⟨rfl, by decide, by decide⟩

/-- C1, amended: if the bulk upsert throws, `index_batch` reports success
count `0` even though `indexed_docs` was already mutated for the batch
before the upsert; `doc_count`, however, is not mutated — it is only
incremented after a successful upsert — and nothing reaches the store. -/
theorem indexBatch_upsert_failure_forces_zero (hash : String → String)
    (a1 a2 a3 : Except String Nat) (encode : String → Except String (List ℚ))
    (e : String) (st : EngineState) {m : Nat} (documents : List Document)
    (d : Document) (hm : st.model = some m)
    (henc : ∀ s, ∃ v, encode s = .ok v) (hd : d ∈ documents)
    (hvalid : pyStrip d.combined_text ≠ "")
    (hnew : assocFind (generateDocId hash d.path) st.indexed_docs = none) :
    (indexBatch hash a1 a2 a3 encode (.error e) st documents).1 = .ok 0 ∧
    (assocFind (generateDocId hash d.path)
      (indexBatch hash a1 a2 a3 encode (.error e) st documents).2.indexed_docs).isSome
        = true ∧
    (indexBatch hash a1 a2 a3 encode (.error e) st documents).2.doc_count
        = st.doc_count ∧
    (indexBatch hash a1 a2 a3 encode (.error e) st documents).2.store = st.store := by
  obtain ⟨indexed1, hmain, hmem⟩ :=
    indexBatch_add_error_state hash a1 a2 a3 encode e st documents d hm henc hd
      hvalid hnew
  rw [hmain]
  exact ⟨rfl, hmem, rfl, rfl⟩

/-- Witness for C1 (amended): the concrete failing-upsert batch returns
`0`, records the document id, and leaves `doc_count` and the store alone. -/
theorem indexBatch_upsert_failure_forces_zero_witness :
    (indexBatch idHash (.ok 0) (.ok 0) (.ok 0) okEncode (.error "boom") stEmpty
      [sampleDoc]).1 = .ok 0 ∧
    (assocFind (generateDocId idHash sampleDoc.path)
      (indexBatch idHash (.ok 0) (.ok 0) (.ok 0) okEncode (.error "boom") stEmpty
        [sampleDoc]).2.indexed_docs).isSome = true ∧
    (indexBatch idHash (.ok 0) (.ok 0) (.ok 0) okEncode (.error "boom") stEmpty
      [sampleDoc]).2.doc_count = stEmpty.doc_count ∧
    (indexBatch idHash (.ok 0) (.ok 0) (.ok 0) okEncode (.error "boom") stEmpty
      [sampleDoc]).2.store = stEmpty.store :=
  indexBatch_upsert_failure_forces_zero idHash (.ok 0) (.ok 0) (.ok 0) okEncode
    "boom" stEmpty [sampleDoc] sampleDoc rfl (fun _ => ⟨[1, 0], rfl⟩)
    (by decide) (by decide) (by decide)

/-- C8: after a failed bulk upsert the batch's new document ids stay in
`indexed_docs` while `doc_count` is not incremented and nothing entered
the store; consequently any later `index_document` on such a path returns
`true` without touching anything, and any later `index_batch` on it skips
the document and returns `0` — the path is unreachable until
`clear_index`. -/
theorem indexBatch_upsert_failure_poisons_dedup (hash : String → String)
    (a1 a2 a3 : Except String Nat) (encode : String → Except String (List ℚ))
    (e : String) (st : EngineState) {m : Nat} (documents : List Document)
    (d : Document) (hm : st.model = some m)
    (henc : ∀ s, ∃ v, encode s = .ok v) (hd : d ∈ documents)
    (hvalid : pyStrip d.combined_text ≠ "")
    (hnew : assocFind (generateDocId hash d.path) st.indexed_docs = none) :
    ((assocFind (generateDocId hash d.path)
      (indexBatch hash a1 a2 a3 encode (.error e) st documents).2.indexed_docs).isSome
        = true) ∧
    (indexBatch hash a1 a2 a3 encode (.error e) st documents).2.doc_count
        = st.doc_count ∧
    (indexBatch hash a1 a2 a3 encode (.error e) st documents).2.store = st.store ∧
    (∀ (a1' a2' a3' : Except String Nat) (encode' : String → Except String (List ℚ))
        (addResult' : Except String Unit),
        indexDocument hash a1' a2' a3' encode' addResult'
          (indexBatch hash a1 a2 a3 encode (.error e) st documents).2 d
          = (true, (indexBatch hash a1 a2 a3 encode (.error e) st documents).2)) ∧
    (∀ (a1' a2' a3' : Except String Nat) (encode' : String → Except String (List ℚ))
        (addResult' : Except String Unit),
        indexBatch hash a1' a2' a3' encode' addResult'
          (indexBatch hash a1 a2 a3 encode (.error e) st documents).2 [d]
          = (.ok 0, (indexBatch hash a1 a2 a3 encode (.error e) st documents).2)) := by
  obtain ⟨indexed1, hmain, hmem⟩ :=
    indexBatch_add_error_state hash a1 a2 a3 encode e st documents d hm henc hd
      hvalid hnew
  rw [hmain]
  refine ⟨hmem, rfl, rfl, ?_, ?_⟩
  · intro a1' a2' a3' encode' addResult'
    unfold indexDocument
    rw [if_neg hvalid]
    dsimp only
    rw [if_pos hmem]
  · intro a1' a2' a3' encode' addResult'
    unfold indexBatch
    have hvd1 : [d].filter (fun x => pyStrip x.combined_text ≠ "") = [d] := by
      simp [hvalid]
    rw [hvd1, if_neg (by simp : ([d] : List Document) ≠ [])]
    rw [ensureModelLoaded_of_some a1' a2' a3'
      (show ({ st with indexed_docs := indexed1 } : EngineState).model = some m from hm)]
    dsimp only
    have hred : batchLoop hash encode' [d]
        ({ st with indexed_docs := indexed1 } : EngineState).indexed_docs [] 0
        = (.ok (), indexed1, [], 0) := by
      dsimp only
      unfold batchLoop
      rw [if_pos hmem]
      rfl
    rw [hred]
    rfl

/-- Ascending distances map to non-increasing confidences under
`confidence = 1 - distance`. -/
lemma pairwise_conf_of_sorted : ∀ (metas : List Metadata) (dists : List ℚ),
    dists.Pairwise (· ≤ ·) →
    ((metas.zip dists).map (fun md => (md.1, 1 - md.2))).Pairwise
      (fun a b => b.2 ≤ a.2)
  | [], _, _ => by simp
  | _ :: _, [], _ => by simp
  | m :: ms, d :: ds, h => by
    rw [List.zip_cons_cons, List.map_cons, List.pairwise_cons]
    obtain ⟨hd, hds⟩ := List.pairwise_cons.mp h
    refine ⟨?_, pairwise_conf_of_sorted ms ds hds⟩
    intro b hb
    rw [List.mem_map] at hb
    obtain ⟨p, hp, rfl⟩ := hb
    have hpd : p.2 ∈ ds := (List.of_mem_zip hp).2
    simpa using sub_le_sub_left (hd _ hpd) 1

/-- C4: under the store contract (at most `n` results for `n_results = n`,
distances ascending), `search` returns at most `min top_k doc_count`
results, its confidences are non-increasing in list order, and on the
success path each returned pair is exactly the store's metadata with
confidence `1 - distance`, in the store's order. -/
theorem search_topk_bound_and_ranking (a1 a2 a3 : Except String Nat)
    (encode : String → Except String (List ℚ))
    (storeQuery : Nat → Except String (List Metadata × List ℚ))
    (st : EngineState) (q : String) (top_k : Nat)
    (hcontract : ∀ n metas dists, storeQuery n = .ok (metas, dists) →
      metas.length ≤ n ∧ dists.Pairwise (· ≤ ·)) :
    (search a1 a2 a3 encode storeQuery st q top_k).1.length
        ≤ min top_k st.doc_count ∧
    (search a1 a2 a3 encode storeQuery st q top_k).1.Pairwise
        (fun a b => b.2 ≤ a.2) ∧
    (∀ st1 emb metas dists,
      ensureModelLoaded a1 a2 a3 st = .ok st1 →
      encode q = .ok emb →
      storeQuery (min top_k st.doc_count) = .ok (metas, dists) →
      st.doc_count ≠ 0 →
      search a1 a2 a3 encode storeQuery st q top_k
        = ((metas.zip dists).map (fun md => (md.1, 1 - md.2)), st1)) := by
  unfold search
  by_cases h0 : st.doc_count = 0
  · rw [if_pos h0]
    refine ⟨by simp, by simp, ?_⟩
    intro st1 emb metas dists _ _ _ hne
    exact absurd h0 hne
  · rw [if_neg h0]
    cases hens : ensureModelLoaded a1 a2 a3 st with
    | error e2 =>
      refine ⟨by simp, by simp, ?_⟩
      intro st1 emb metas dists hok _ _ _
      exact Except.noConfusion hok
    | ok st1 =>
      dsimp only
      cases henc : encode q with
      | error e2 =>
        refine ⟨by simp, by simp, ?_⟩
        intro st1' emb metas dists _ hok _ _
        exact Except.noConfusion hok
      | ok emb =>
        dsimp only
        cases hq : storeQuery (min top_k st.doc_count) with
        | error e2 =>
          refine ⟨by simp, by simp, ?_⟩
          intro st1' emb' metas dists _ _ hok _
          exact Except.noConfusion hok
        | ok pair =>
          obtain ⟨metas, dists⟩ := pair
          dsimp only
          obtain ⟨hlen, hsort⟩ := hcontract _ _ _ hq
          have heq : (if metas ≠ [] ∧ dists ≠ [] then
                (((metas.zip dists).map (fun md => (md.1, 1 - md.2)) :
                    List (Metadata × ℚ)), st1)
              else ([], st1))
              = ((metas.zip dists).map (fun md => (md.1, 1 - md.2)), st1) := by
            by_cases hg : metas ≠ [] ∧ dists ≠ []
            · rw [if_pos hg]
            · rw [if_neg hg]
              rcases not_and_or.mp hg with hmn | hdn
              · have hm0 : metas = [] := not_not.mp hmn
                subst hm0
                simp
              · have hd0 : dists = [] := not_not.mp hdn
                subst hd0
                simp
          rw [heq]
          dsimp only
          refine ⟨?_, pairwise_conf_of_sorted metas dists hsort, ?_⟩
          · rw [List.length_map, List.length_zip]
            exact le_trans (min_le_left _ _) hlen
          · intro st1' emb' metas' dists' hok1 hok2 hok3 _
            injection hok1 with h1
            subst h1
            injection hok3 with h3
            injection h3 with h3a h3b
            subst h3a
            subst h3b
            rfl

/-- Store oracle for the C4 witness: one entry at distance `1/4` whenever
at least one result is requested. -/
def wStoreQuery : Nat → Except String (List Metadata × List ℚ) :=
  fun n => if 1 ≤ n then
    .ok ([⟨"a.png", "a.png", "", "", false, false⟩], [1/4])
  else .ok ([], [])

/-- Witness for C4: on a one-document index with a concrete store oracle
the bound, the ordering, and the `confidence = 1 - distance` equation all
hold. -/
theorem search_topk_bound_and_ranking_witness :
    (search (.ok 0) (.ok 0) (.ok 0) okEncode wStoreQuery stOne "blue button" 5).1.length
        ≤ min 5 stOne.doc_count ∧
    (search (.ok 0) (.ok 0) (.ok 0) okEncode wStoreQuery stOne "blue button" 5).1.Pairwise
        (fun a b => b.2 ≤ a.2) ∧
    search (.ok 0) (.ok 0) (.ok 0) okEncode wStoreQuery stOne "blue button" 5
      = (([(⟨"a.png", "a.png", "", "", false, false⟩ : Metadata)].zip [(1:ℚ)/4]).map
          (fun md => (md.1, 1 - md.2)), stOne) := by
  have hc : ∀ n metas dists, wStoreQuery n = .ok (metas, dists) →
      metas.length ≤ n ∧ dists.Pairwise (· ≤ ·) := by
    intro n metas dists h
    unfold wStoreQuery at h
    by_cases h1 : 1 ≤ n
    · rw [if_pos h1] at h
      injection h with h2
      injection h2 with h3 h4
      subst h3
      subst h4
      exact ⟨by simpa using h1, by simp⟩
    · rw [if_neg h1] at h
      injection h with h2
      injection h2 with h3 h4
      subst h3
      subst h4
      exact ⟨by simp, by simp⟩
  have h := search_topk_bound_and_ranking (.ok 0) (.ok 0) (.ok 0) okEncode wStoreQuery
    stOne "blue button" 5 hc
  exact ⟨h.1, h.2.1, h.2.2 stOne [1, 0] _ _ rfl rfl rfl (by decide)⟩

/-- Cache hit: with a client and `use_cache = True`, a stored description
is returned without invoking the compute function and without touching
the cache. -/
lemma getVision_hit (hashI : String → String)
    (computeF : String → Except String String)
    (cache : List (String × String)) (image v : String)
    (hv : assocFind (hashI image) cache = some v) :
    getVisionDescription hashI computeF true true cache image = (v, cache, false) := by
  simp only [getVisionDescription, hv, Bool.not_true, Bool.false_eq_true, if_false,
    if_true]

/-- Cache miss with a successful compute: the description is returned,
stored under the content key, and the compute function was invoked. -/
lemma getVision_miss_ok (hashI : String → String)
    (computeF : String → Except String String)
    (cache : List (String × String)) (image desc : String)
    (hn : assocFind (hashI image) cache = none)
    (hc : computeF image = .ok desc) :
    getVisionDescription hashI computeF true true cache image
      = (desc, (hashI image, desc) :: cache, true) := by
  simp only [getVisionDescription, hn, hc, Bool.not_true, Bool.false_eq_true, if_false,
    if_true]

/-- A call about one image never disturbs the cache entry of a different
content key. -/
lemma getVision_find_preserved (hashI : String → String)
    (computeF : String → Except String String)
    (cache : List (String × String)) (x k : String) (hne : hashI x ≠ k) :
    assocFind k (getVisionDescription hashI computeF true true cache x).2.1
      = assocFind k cache := by
  simp only [getVisionDescription, Bool.not_true, Bool.false_eq_true, if_false, if_true]
  cases hfx : assocFind (hashI x) cache with
  | some v => rfl
  | none =>
    cases computeF x with
    | ok desc =>
      dsimp only
      rw [assocFind_cons, if_neg hne]
    | error e => rfl

/-- Once the content key is cached, later calls (with any interleaved
contents) never invoke compute for it again and never change its entry. -/
lemma visionCallsFor_cached {hashI : String → String}
    {computeF : String → Except String String} {c v : String}
    (hinj : ∀ x, hashI x = hashI c → x = c) :
    ∀ (imgs : List String) (cache : List (String × String)),
      assocFind (hashI c) cache = some v →
      (visionCallsFor hashI computeF c cache imgs).2 = 0 ∧
      assocFind (hashI c) (visionCallsFor hashI computeF c cache imgs).1 = some v
  | [], _, hv => ⟨rfl, hv⟩
  | x :: rest, cache, hv => by
    simp only [visionCallsFor]
    by_cases hxc : x = c
    · subst hxc
      rw [getVision_hit hashI computeF cache x v hv]
      obtain ⟨h1, h2⟩ := visionCallsFor_cached hinj rest cache hv
      refine ⟨?_, h2⟩
      simpa using h1
    · have hne : hashI x ≠ hashI c := fun hcol => hxc (hinj x hcol)
      have hv' : assocFind (hashI c)
          (getVisionDescription hashI computeF true true cache x).2.1 = some v := by
        rw [getVision_find_preserved hashI computeF cache x (hashI c) hne]
        exact hv
      obtain ⟨h1, h2⟩ := visionCallsFor_cached hinj rest _ hv'
      refine ⟨?_, h2⟩
      simpa [hxc] using h1

/-- Starting from an uncached key with a succeeding compute function, a
sequence of calls invokes compute for that content exactly once when the
content occurs at all, and afterwards the cache permanently maps the key
to the computed description. -/
lemma visionCallsFor_count {hashI : String → String}
    {computeF : String → Except String String} {c desc : String}
    (hinj : ∀ x, hashI x = hashI c → x = c)
    (hcomp : computeF c = .ok desc) :
    ∀ (imgs : List String) (cache : List (String × String)),
      assocFind (hashI c) cache = none →
      (visionCallsFor hashI computeF c cache imgs).2
          = (if c ∈ imgs then 1 else 0) ∧
      assocFind (hashI c) (visionCallsFor hashI computeF c cache imgs).1
          = (if c ∈ imgs then some desc else none)
  | [], cache, hn => by
    simp only [visionCallsFor]
    simp [hn]
  | x :: rest, cache, hn => by
    simp only [visionCallsFor]
    by_cases hxc : x = c
    · subst hxc
      rw [getVision_miss_ok hashI computeF cache x desc hn hcomp]
      have hv' : assocFind (hashI x) ((hashI x, desc) :: cache) = some desc := by
        rw [assocFind_cons]
        simp
      obtain ⟨h1, h2⟩ := visionCallsFor_cached hinj rest _ hv'
      constructor
      · rw [h1]
        simp
      · rw [h2]
        simp
    · have hne : hashI x ≠ hashI c := fun hcol => hxc (hinj x hcol)
      have hn' : assocFind (hashI c)
          (getVisionDescription hashI computeF true true cache x).2.1 = none := by
        rw [getVision_find_preserved hashI computeF cache x (hashI c) hne]
        exact hn
      have hcx : ¬ c = x := fun hcon => hxc hcon.symm
      obtain ⟨h1, h2⟩ := visionCallsFor_count hinj hcomp rest _ hn'
      constructor
      · rw [h1]
        simp [hxc, List.mem_cons, hcx]
      · rw [h2]
        simp [List.mem_cons, hcx]

/-- C7: with an initialized client and `use_cache = True`, the
content-addressed description cache invokes the external compute function
exactly once per distinct image byte content across any number of calls
(assuming a collision-free content hash and a succeeding compute): a hit
returns the stored value without invoking compute and without mutating
the cache, and a miss invokes compute, stores the result under the
content key once, and returns it. -/
theorem visionCache_compute_once (hashI : String → String)
    (computeF : String → Except String String) (c desc : String)
    (cache : List (String × String)) (imgs : List String)
    (hinj : ∀ x, hashI x = hashI c → x = c)
    (hcomp : computeF c = .ok desc)
    (hn : assocFind (hashI c) cache = none) :
    ((visionCallsFor hashI computeF c cache imgs).2
        = (if c ∈ imgs then 1 else 0)) ∧
    (assocFind (hashI c) (visionCallsFor hashI computeF c cache imgs).1
        = (if c ∈ imgs then some desc else none)) ∧
    (getVisionDescription hashI computeF true true cache c
        = (desc, (hashI c, desc) :: cache, true)) ∧
    (∀ (cache' : List (String × String)) (v : String),
        assocFind (hashI c) cache' = some v →
        getVisionDescription hashI computeF true true cache' c = (v, cache', false)) := by
  obtain ⟨h1, h2⟩ := visionCallsFor_count hinj hcomp imgs cache hn
  exact ⟨h1, h2, getVision_miss_ok hashI computeF cache c desc hn hcomp,
    fun cache' v hv => getVision_hit hashI computeF cache' c v hv⟩

/-- Witness for C7: three calls, two with the same byte content, invoke
the compute function exactly once for that content, and the cache ends up
holding its description. -/
theorem visionCache_compute_once_witness :
    (visionCallsFor idHash (fun _ => .ok "a description") "img" []
        ["img", "other", "img"]).2 = 1 ∧
    assocFind (idHash "img") (visionCallsFor idHash (fun _ => .ok "a description")
        "img" [] ["img", "other", "img"]).1 = some "a description" := by
  have h := visionCache_compute_once idHash (fun _ => .ok "a description") "img"
    "a description" [] ["img", "other", "img"] (fun x hx => hx) rfl rfl
  constructor
  · rw [h.1]
    decide
  · have h2 := h.2.1
    rw [h2]
    decide

/-- Witness for C8: after the concrete failing-upsert batch, re-indexing
the same path via `index_document` reports `true` without changing
anything, a one-element `index_batch` skips it reporting `0`, and the
store still holds nothing. -/
theorem indexBatch_upsert_failure_poisons_dedup_witness :
    indexDocument idHash (.ok 0) (.ok 0) (.ok 0) okEncode (.ok ())
      (indexBatch idHash (.ok 0) (.ok 0) (.ok 0) okEncode (.error "boom") stEmpty
        [sampleDoc]).2 sampleDoc
      = (true, (indexBatch idHash (.ok 0) (.ok 0) (.ok 0) okEncode (.error "boom")
          stEmpty [sampleDoc]).2) ∧
    indexBatch idHash (.ok 0) (.ok 0) (.ok 0) okEncode (.ok ())
      (indexBatch idHash (.ok 0) (.ok 0) (.ok 0) okEncode (.error "boom") stEmpty
        [sampleDoc]).2 [sampleDoc]
      = (.ok 0, (indexBatch idHash (.ok 0) (.ok 0) (.ok 0) okEncode (.error "boom")
          stEmpty [sampleDoc]).2) ∧
    (indexBatch idHash (.ok 0) (.ok 0) (.ok 0) okEncode (.error "boom") stEmpty
      [sampleDoc]).2.store = stEmpty.store := by
  have h := indexBatch_upsert_failure_poisons_dedup idHash (.ok 0) (.ok 0) (.ok 0)
    okEncode "boom" stEmpty [sampleDoc] sampleDoc rfl (fun _ => ⟨[1, 0], rfl⟩)
    (by decide) (by decide) (by decide)
  exact ⟨h.2.2.2.1 _ _ _ _ _, h.2.2.2.2 _ _ _ _ _, h.2.2.1⟩
